import Mathlib

/-!
Shallow embedding of the llm-council orchestration core
(`backend/openrouter.py`, `backend/council.py`, `backend/main.py`)
and verification of the specification claims about it.

Conventions of the embedding:
* Python strings are `String` / `List Char`; `None`-able strings are `Option String`.
* Python dicts (insertion ordered, last assignment wins but keeps the key's
  original position) are association lists built with `dictInsert`.
* The network is abstracted by an `Attempt` value per gateway call, supplied by
  a `World`; `query_model` maps an attempt to the response dict exactly as the
  source does.  Functions that can raise a Python exception return
  `Except String α`, where the error string names the exception.
-/

namespace LlmCouncil

/-! ### Python-semantics helpers -/

/-- Python dict assignment `d[k] = v`: if the key is present its value is
replaced in place (keeping the key's original position), otherwise the pair is
appended. -/
def dictInsert {α : Type} (d : List (String × α)) (k : String) (v : α) : List (String × α) :=
  if d.any (fun p => p.1 == k) then d.map (fun p => if p.1 == k then (p.1, v) else p)
  else d ++ [(k, v)]

/-- Python dict built from a sequence of key-value pairs (as in a dict
comprehension or `dict(zip(ks, vs))`). -/
def dictOfPairs {α : Type} (ps : List (String × α)) : List (String × α) :=
  ps.foldl (fun d p => dictInsert d p.1 p.2) []

/-- Python `d.get(k)` / `k in d` lookup on the association-list dict. -/
def dictGet {α : Type} (d : List (String × α)) (k : String) : Option α :=
  match d.find? (fun p => p.1 == k) with
  | some p => some p.2
  | none => none

/-- The list of distinct elements of `l` in order of first appearance
(the key order of a Python dict fed duplicate keys). -/
def pyDedupFirst (l : List String) : List String :=
  l.foldl (fun acc m => if m ∈ acc then acc else acc ++ [m]) []

/-- Python `str(x)` for an optional string: `None` prints as `"None"`
(this is what an f-string interpolates for a failed response). -/
def pyStr (s : Option String) : String :=
  match s with
  | none => "None"
  | some t => t

def startsWithSeq : List Char → List Char → Bool
  | [], _ => true
  | _ :: _, [] => false
  | p :: ps, c :: cs => p == c && startsWithSeq ps cs

/-- First occurrence of `pat` in `s` (for nonempty `pat`): returns the part of
`s` strictly before the match and the part strictly after it.  `isSome` of the
result is Python's `pat in s`. -/
def findFirst (pat : List Char) : List Char → Option (List Char × List Char)
  | [] => none
  | c :: rest =>
    if startsWithSeq pat (c :: rest) then some ([], (c :: rest).drop pat.length)
    else
      match findFirst pat rest with
      | some (pre, suf) => some (c :: pre, suf)
      | none => none

/-- Python `s.split(sep)` for a nonempty separator, written with an auxiliary
skip counter so that the recursion is structural: while the counter is positive
we are still inside a just-matched separator. -/
def pySplitAux (sep : List Char) : List Char → Nat → List (List Char)
  | [], _ => [[]]
  | _ :: rest, k + 1 => pySplitAux sep rest k
  | c :: rest, 0 =>
    if startsWithSeq sep (c :: rest) then [] :: pySplitAux sep rest (sep.length - 1)
    else
      match pySplitAux sep rest 0 with
      | [] => [[c]]
      | p :: ps => (c :: p) :: ps

def pySplit (sep : List Char) (s : List Char) : List (List Char) :=
  pySplitAux sep s 0

def isUpperChar (c : Char) : Bool := 'A' ≤ c && c ≤ 'Z'

def isDigitChar (c : Char) : Bool := '0' ≤ c && c ≤ '9'

/-- ASCII whitespace matched by the regex class backslash-s. -/
def isPySpace (c : Char) : Bool :=
  c == ' ' || c == '\t' || c == '\n' || c == '\r' || c == Char.ofNat 11 || c == Char.ofNat 12

/-- Consume a maximal run of decimal digits; returns how many and the rest. -/
def takeDigits : List Char → Nat × List Char
  | [] => (0, [])
  | c :: rest =>
    if isDigitChar c then
      let p := takeDigits rest
      (p.1 + 1, p.2)
    else (0, c :: rest)

/-- Consume a maximal run of whitespace; returns how many and the rest. -/
def takeSpaces : List Char → Nat × List Char
  | [] => (0, [])
  | c :: rest =>
    if isPySpace c then
      let p := takeSpaces rest
      (p.1 + 1, p.2)
    else (0, c :: rest)

/-- Does `s` start with the 10-character pattern `Response ` followed by an
uppercase letter?  Returns that letter. -/
def responseLetterAt : List Char → Option Char
  | 'R' :: 'e' :: 's' :: 'p' :: 'o' :: 'n' :: 's' :: 'e' :: ' ' :: c :: _ =>
    if isUpperChar c then some c else none
  | _ => none

/-- Match of the regex `digits, dot, whitespace*, Response, space, uppercase`
at the start of `s`; returns the letter and the total number of characters
consumed.  Greedy munching agrees with the regex because a digit cannot be a
dot and whitespace cannot open `Response `. -/
def matchNumberedAt (s : List Char) : Option (Char × Nat) :=
  let d := takeDigits s
  if d.1 == 0 then none
  else
    match d.2 with
    | '.' :: r2 =>
      let sp := takeSpaces r2
      match responseLetterAt sp.2 with
      | some c => some (c, d.1 + 1 + sp.1 + 10)
      | none => none
    | _ => none

/-- Scanner for `re.findall` of the numbered-entry regex: left to right,
non-overlapping; the counter skips the remainder of a match already consumed. -/
def scanNumbered : List Char → Nat → List String
  | [], _ => []
  | _ :: rest, k + 1 => scanNumbered rest k
  | c :: rest, 0 =>
    match matchNumberedAt (c :: rest) with
    | some (ch, n) => ("Response " ++ String.mk [ch]) :: scanNumbered rest (n - 1)
    | none => scanNumbered rest 0

def findAllNumbered (s : List Char) : List String := scanNumbered s 0

/-- Scanner for `re.findall` of the plain `Response `-plus-letter regex. -/
def scanResponse : List Char → Nat → List String
  | [], _ => []
  | _ :: rest, k + 1 => scanResponse rest k
  | c :: rest, 0 =>
    match responseLetterAt (c :: rest) with
    | some ch => ("Response " ++ String.mk [ch]) :: scanResponse rest 9
    | none => scanResponse rest 0

def findAllResponse (s : List Char) : List String := scanResponse s 0

/-- Python `round(q, 2)` on the exact rational value (ties round away from the
float-representation subtleties of CPython, which never arise on the inputs
the claims touch). -/
def round2 (q : ℚ) : ℚ := ((⌊100 * q + 1 / 2⌋ : ℤ) : ℚ) / 100

/-! ### Data model -/

/-- Outcome of one HTTP attempt against the provider, abstracting the network:
a well-formed 2xx reply carrying `choices[0].message` (whose `content` may be
null), a non-2xx status (caught as `httpx.HTTPStatusError`), or any other
exception (network error, timeout, malformed payload raising `KeyError`, ...). -/
inductive Attempt where
  | ok (content : Option String) (reasoning_details : Option String)
  | httpStatus (code : Nat) (message : String)
  | exc (message : String)
deriving DecidableEq

/-- The dict returned by `openrouter.query_model`; all four keys are always
present. -/
structure ModelResponse where
  content : Option String
  reasoning_details : Option String
  error : Option String
  status_code : Option Nat
deriving DecidableEq

structure Stage1Result where
  model : String
  response : Option String
deriving DecidableEq

structure Stage2Result where
  model : String
  ranking : Option String
  parsed_ranking : List String
deriving DecidableEq

structure Stage3Result where
  model : String
  response : Option String
deriving DecidableEq

structure Agg where
  model : String
  average_rank : ℚ
  rankings_count : Nat
deriving DecidableEq

/-- The metadata dict of a run: the full shape built by `run_full_council`, or
the empty dict returned by its `_return_error` path.  Note that the source
builds no `stage1Errors` entry. -/
inductive PyMetadata where
  | empty
  | meta (framework : String) (council_models : List String) (chairman_model : String)
      (label_to_model : List (String × String)) (aggregate_rankings : List Agg)
deriving DecidableEq

/-- Environment of one run: the configured API key and the outcome the
provider would give to each gateway call of each stage. -/
structure World where
  apiKey : Option String
  stage1Attempt : String → Attempt
  stage2Attempt : String → Attempt
  stage3Attempt : Attempt
  titleAttempt : Attempt

/-! ### Model gateway (`backend/openrouter.py`) -/

/-- Embedding of `openrouter.query_model`.  It is a total function: every
failure is returned as data (the docstring's promise of returning `None` on
failure is not what the code does — no branch returns `None`). -/
def query_model (apiKey : Option String) (attempt : Attempt) : ModelResponse :=
  match apiKey with
  | none => ⟨none, none, some "OPENROUTER_API_KEY is not configured.", none⟩
  | some _ =>
    match attempt with
    | .ok c r => ⟨c, r, none, none⟩
    | .httpStatus code msg => ⟨none, none, some (toString code ++ ": " ++ msg), some code⟩
    | .exc msg => ⟨none, none, some msg, none⟩

/-- Embedding of `openrouter.query_models_parallel`: one task per entry of
`models`, gathered in order into `responses`, then collapsed into a dict by
`{model: response for model, response in zip(models, responses)}`. -/
def query_models_parallel {α : Type} (models : List String) (responses : List α) :
    List (String × α) :=
  dictOfPairs (models.zip responses)

/-! ### Council configuration (`backend/config.py`) -/

def COUNCIL_MODELS : List String :=
  ["nvidia/nemotron-3-nano-30b-a3b:free", "xiaomi/mimo-v2-flash:free",
    "mistralai/devstral-2512:free", "nex-agi/deepseek-v3.1-nex-n1:free",
    "moonshotai/kimi-k2:free", "deepseek/deepseek-r1-0528:free"]

def CHAIRMAN_MODEL : String := "mistralai/devstral-2512:free"

/-- Python `council_models if council_models and len(council_models) > 0 else
COUNCIL_MODELS` (an absent or empty list falls back to the default). -/
def activeModels (council_models : Option (List String)) : List String :=
  match council_models with
  | some l => if l.length > 0 then l else COUNCIL_MODELS
  | none => COUNCIL_MODELS

/-- Python `chairman_model or CHAIRMAN_MODEL` (`None` and `""` are falsy). -/
def pyOrChairman (chairman_model : Option String) : String :=
  match chairman_model with
  | some s => if s == "" then CHAIRMAN_MODEL else s
  | none => CHAIRMAN_MODEL

/-! ### Stage 1 (`council.stage1_collect_responses`) -/

/-- The value of each task created by the Stage-1 fan-out: always
`some (query_model ...)`, never `none`, because `query_model` is total. -/
def stage1Responses (w : World) (models : List String) : List (Option ModelResponse) :=
  models.map (fun m => some (query_model w.apiKey (w.stage1Attempt m)))

/-- Embedding of `council.stage1_collect_responses`.  The loop's
`if response is not None` filter is the `match` on the optional value; since
`query_model` never produces `none`, no entry is ever skipped, and for a
failed call `response.get('content', '')` is the stored `None`. -/
def stage1_collect_responses (w : World) (council_models : Option (List String)) :
    List Stage1Result :=
  let active := activeModels council_models
  let responses := query_models_parallel active (stage1Responses w active)
  responses.foldl
    (fun acc p =>
      match p.2 with
      | some response => acc ++ [⟨p.1, response.content⟩]
      | none => acc)
    []

/-! ### Anonymized labels (`council.stage2_collect_rankings`, lines 56-63) -/

/-- Python `chr(65 + i) for i in range(len(stage1_results))`. -/
def makeLabels (n : Nat) : List Char := (List.range n).map (fun i => Char.ofNat (65 + i))

/-- Python f-string `f"Response {label}"`. -/
def labelString (c : Char) : String := "Response " ++ String.mk [c]

/-- Embedding of the label-to-model dict comprehension shared by
`stage2_collect_rankings`, `stage2_collect_critiques` and the ensemble branch
of `run_full_council`. -/
def label_to_model (stage1_results : List Stage1Result) : List (String × String) :=
  dictOfPairs (((makeLabels stage1_results.length).zip stage1_results).map
    (fun p => (labelString p.1, p.2.model)))

/-- The anonymized block of the Stage-2 ranking prompt (lines 66-69 of
`council.py`): `"Response {label}:\n{result['response']}"` joined by blank
lines.  A failed model's `None` response is interpolated as the text `None`. -/
def stage2_responses_text (stage1_results : List Stage1Result) : String :=
  String.intercalate "\n\n" (((makeLabels stage1_results.length).zip stage1_results).map
    (fun p => "Response " ++ String.mk [p.1] ++ ":\n" ++ pyStr p.2.response))

/-! ### Ranking extractor (`council.parse_ranking_from_text`) -/

def MARKER : List Char := "FINAL RANKING:".toList

/-- Embedding of `council.parse_ranking_from_text`.  Faithful points: the
ranking section is `ranking_text.split("FINAL RANKING:")[1]`, i.e. the text
between the first and (if any) second occurrence of the marker; the
`len(parts) >= 2` guard falls through to the whole-text scan when it fails
(it never fails when the marker is present). -/
def parse_ranking_from_text (ranking_text : String) : List String :=
  let cs := ranking_text.toList
  if (findFirst MARKER cs).isSome then
    let parts := pySplit MARKER cs
    if 2 ≤ parts.length then
      let ranking_section := parts.getD 1 []
      let numbered := findAllNumbered ranking_section
      if numbered.isEmpty then findAllResponse ranking_section else numbered
    else findAllResponse cs
  else findAllResponse cs

def typeErrorMsg : String := "TypeError: argument of type NoneType is not iterable"

/-- Applying `parse_ranking_from_text` to a Python value that may be `None`:
`"FINAL RANKING:" in None` raises `TypeError`. -/
def pyParseRanking : Option String → Except String (List String)
  | none => Except.error typeErrorMsg
  | some t => Except.ok (parse_ranking_from_text t)

/-! ### Stage 2 (`council.stage2_collect_rankings`, `stage2_collect_critiques`) -/

/-- Embedding of `council.stage2_collect_rankings` (the prompt string it sends
is irrelevant to its result and is omitted; its anonymized-responses block is
`stage2_responses_text`).  For each model of the dict, in order:
`full_text = response.get('content', '')` is the stored content (possibly
`None`), and `parse_ranking_from_text(full_text)` raises `TypeError` on
`None`, aborting the whole call. -/
def stage2_collect_rankings (w : World) (stage1_results : List Stage1Result)
    (council_models : Option (List String)) :
    Except String (List Stage2Result × List (String × String)) := do
  let active := activeModels council_models
  let l2m := label_to_model stage1_results
  let responses := query_models_parallel active
    (active.map (fun m => some (query_model w.apiKey (w.stage2Attempt m))))
  let results ← responses.foldlM
    (fun acc p =>
      match p.2 with
      | some response => do
        let full_text := response.content
        let parsed ← pyParseRanking full_text
        pure (acc ++ [(⟨p.1, full_text, parsed⟩ : Stage2Result)])
      | none => pure acc)
    []
  pure (results, l2m)

/-- Embedding of `council.stage2_collect_critiques`: the `if response:`
truthiness test is always true (the response dict is never empty), the
critique text is stored in the `ranking` field and no parse is attempted. -/
def stage2_collect_critiques (w : World) (stage1_results : List Stage1Result)
    (council_models : Option (List String)) :
    List Stage2Result × List (String × String) :=
  let active := activeModels council_models
  let l2m := label_to_model stage1_results
  let responses := query_models_parallel active
    (active.map (fun m => some (query_model w.apiKey (w.stage2Attempt m))))
  (responses.foldl
    (fun acc p =>
      match p.2 with
      | some response => acc ++ [(⟨p.1, response.content, []⟩ : Stage2Result)]
      | none => acc)
    [], l2m)

/-! ### Rank aggregator (`council.calculate_aggregate_rankings`) -/

/-- Python `model_positions[model_name].append(position)` on a
`defaultdict(list)`: insertion order of first appearance is preserved. -/
def dictAppendPos (d : List (String × List Nat)) (k : String) (v : Nat) :
    List (String × List Nat) :=
  if d.any (fun p => p.1 == k) then
    d.map (fun p => if p.1 == k then (p.1, p.2 ++ [v]) else p)
  else d ++ [(k, [v])]

/-- The inner loop of `calculate_aggregate_rankings` for one Stage-2 entry:
walk the parsed ranking with 1-based positions, attributing each position to
the model its label maps to; unmapped labels are skipped. -/
def attributeText (l2m : List (String × String)) (d : List (String × List Nat))
    (t : String) : List (String × List Nat) :=
  (parse_ranking_from_text t).enum.foldl
    (fun d' p =>
      match dictGet l2m p.2 with
      | some m => dictAppendPos d' m (p.1 + 1)
      | none => d')
    d

/-- The `model_positions` accumulator after the outer loop over all Stage-2
ranking texts. -/
def modelPositions (texts : List String) (l2m : List (String × String)) :
    List (String × List Nat) :=
  texts.foldl (attributeText l2m) []

def mkAggEntry (m : String) (ps : List Nat) : Agg :=
  ⟨m, round2 ((ps.sum : ℚ) / (ps.length : ℚ)), ps.length⟩

/-- The comparison `aggregate.sort(key=lambda x: x['average_rank'])` sorts by. -/
def aggle (a b : Agg) : Prop := a.average_rank ≤ b.average_rank

instance : DecidableRel aggle :=
  fun a b => inferInstanceAs (Decidable (a.average_rank ≤ b.average_rank))

instance : IsTotal Agg aggle := ⟨fun a b => le_total a.average_rank b.average_rank⟩

instance : IsTrans Agg aggle := ⟨fun _ _ _ h1 h2 => le_trans h1 h2⟩

/-- The pure core of `calculate_aggregate_rankings` once every ranking text is
known to be a string: build `model_positions`, turn each entry (skipping the
impossible empty-positions case, as the source's `if positions:` does) into an
aggregate record, and stable-sort ascending by average rank.  `insertionSort`
is a stable sort, hence extensionally equal to Python's `list.sort`. -/
def calcAggPure (texts : List String) (l2m : List (String × String)) : List Agg :=
  List.insertionSort aggle
    ((modelPositions texts l2m).foldl
      (fun acc p => if p.2.isEmpty then acc else acc ++ [mkAggEntry p.1 p.2]) [])

/-- Embedding of `council.calculate_aggregate_rankings`.  Each entry's
`ranking['ranking']` is re-parsed; if any of them is `None` the first such
entry raises `TypeError` (parse of `None`), discarding all work. -/
def calculate_aggregate_rankings (stage2_results : List Stage2Result)
    (l2m : List (String × String)) : Except String (List Agg) :=
  match stage2_results.mapM
      (fun e =>
        match e.ranking with
        | some t => Except.ok t
        | none => (Except.error typeErrorMsg : Except String String)) with
  | Except.error msg => Except.error msg
  | Except.ok texts => Except.ok (calcAggPure texts l2m)

/-! ### Stage 3 (`council.stage3_synthesize_final`, the later definition,
lines 585-644, which shadows the earlier one at module load) -/

/-- Embedding of `council.stage3_synthesize_final` (its prompt strings do not
influence its result and are omitted; `mode` only selects prompt text).  The
`response is None` fallback is reachable only for an actual `None`, which
`query_model` never returns. -/
def stage3_synthesize_final (response : Option ModelResponse)
    (chairman_model : Option String) : Stage3Result :=
  let active_chairman_model := pyOrChairman chairman_model
  match response with
  | none => ⟨active_chairman_model, some "Error: Unable to generate final synthesis."⟩
  | some r => ⟨active_chairman_model, r.content⟩

/-! ### Title generation (`council.generate_conversation_title`) -/

def wsChars : List Char := [' ', '\t', '\n', '\r', Char.ofNat 11, Char.ofNat 12]

def quoteChars : List Char := ['"', Char.ofNat 39]

/-- Python `s.strip(chars)` (both ends). -/
def pyStripChars (chars : List Char) (s : String) : String :=
  String.mk (((s.toList.dropWhile (· ∈ chars)).reverse.dropWhile (· ∈ chars)).reverse)

def attributeErrorMsg : String := "AttributeError: NoneType object has no attribute strip"

/-- Embedding of `council.generate_conversation_title` applied to the value
returned by the title gateway call.  `response.get('content', 'New
Conversation')` returns the stored value whenever the key is present — and it
always is — so on a failed call it is `None` and the immediate `.strip()`
raises `AttributeError`.  The `response is None` branch exists in the source
but is unreachable through `query_model`. -/
def generate_conversation_title (response : Option ModelResponse) : Except String String :=
  match response with
  | none => Except.ok "New Conversation"
  | some r =>
    match r.content with
    | none => Except.error attributeErrorMsg
    | some c =>
      let title := pyStripChars wsChars c
      let title := pyStripChars quoteChars title
      Except.ok (if 50 < title.length then title.take 47 ++ "..." else title)

/-! ### Six-hats Stage 1 (`council.stage1_collect_responses_six_hats`) -/

def HATS : List String :=
  ["White Hat", "Red Hat", "Black Hat", "Yellow Hat", "Green Hat", "Blue Hat"]

/-- Embedding of `council.stage1_collect_responses_six_hats`: one individual
gateway call per model (duplicates are not collapsed here), hats assigned by
position cycling through the six; the `if response:` truthiness filter is
always true because the response dict is never empty. -/
def stage1_collect_responses_six_hats (w : World) (council_models : Option (List String)) :
    List Stage1Result :=
  let active := activeModels council_models
  active.enum.map
    (fun p =>
      let response := query_model w.apiKey (w.stage1Attempt p.2)
      ⟨p.2 ++ " (" ++ HATS.getD (p.1 % HATS.length) "" ++ ")", response.content⟩)

/-! ### Orchestrator (`council.run_full_council`, `council._return_error`) -/

/-- Embedding of `council._return_error`: empty Stage-1/Stage-2 sequences, the
synthetic failure result, and an empty metadata dict. -/
def return_error : List Stage1Result × List Stage2Result × Stage3Result × PyMetadata :=
  ([], [], ⟨"error", some "All models failed to respond. Please try again."⟩, .empty)

/-- Embedding of `council.run_full_council`. -/
def run_full_council (w : World) (framework : String) (council_models : Option (List String))
    (chairman_model : Option String) :
    Except String (List Stage1Result × List Stage2Result × Stage3Result × PyMetadata) := do
  let active_council_models := activeModels council_models
  let active_chairman_model := pyOrChairman chairman_model
  let stage1_results :=
    if framework == "six_hats" then
      stage1_collect_responses_six_hats w (some active_council_models)
    else stage1_collect_responses w (some active_council_models)
  if stage1_results.isEmpty then pure return_error
  else do
    let s2 ←
      if framework == "debate" then
        pure (stage2_collect_critiques w stage1_results (some active_council_models))
      else if framework == "ensemble" then
        pure (([] : List Stage2Result), label_to_model stage1_results)
      else stage2_collect_rankings w stage1_results (some active_council_models)
    let stage2_results := s2.1
    let l2m := s2.2
    let aggregate_rankings ←
      if (framework == "standard" || framework == "six_hats") && !stage2_results.isEmpty then
        calculate_aggregate_rankings stage2_results l2m
      else pure []
    let stage3_result :=
      stage3_synthesize_final (some (query_model w.apiKey w.stage3Attempt))
        (some active_chairman_model)
    pure (stage1_results, stage2_results, stage3_result,
      .meta framework (stage1_results.map (·.model)) active_chairman_model l2m
        aggregate_rankings)

/-! ### Streaming progress events (`main.send_message_stream`, `event_generator`) -/

/-- The sequence of event types yielded by `main.event_generator` on its
exception-free path (payloads omitted; they ride along with the named types). -/
def event_generator (framework : String) (is_first_message : Bool) : List String :=
  ["stage1_start", "stage1_complete", "stage2_start"]
    ++ (if framework == "ensemble" then ["stage2_skipped"] else ["stage2_complete"])
    ++ ["stage3_start", "stage3_complete"]
    ++ (if is_first_message then ["title_complete"] else [])
    ++ ["complete"]

/-! ### Specification-level definitions (written from the claims' words, to be
compared with the embeddings above) -/

/-- The ranking extractor as the claim words it: the ranking section is
EVERYTHING after the first occurrence of the marker. -/
def claimParse (s : String) : List String :=
  match findFirst MARKER s.toList with
  | none => findAllResponse s.toList
  | some (_, after) =>
    let numbered := findAllNumbered after
    if numbered.isEmpty then findAllResponse after else numbered

/-- The ranking extractor as the amended claim words it: the ranking section is
the text after the first occurrence of the marker and before the next
occurrence, if any. -/
def amendedParse (s : String) : List String :=
  match findFirst MARKER s.toList with
  | none => findAllResponse s.toList
  | some (_, after) =>
    let sec :=
      match findFirst MARKER after with
      | none => after
      | some (pre2, _) => pre2
    let numbered := findAllNumbered sec
    if numbered.isEmpty then findAllResponse sec else numbered

/-- The attribution events of one Stage-2 ranking text: for each parsed label,
in order, the model it maps to (unmapped labels skipped) together with the
label's 1-based position. -/
def rankEvents (l2m : List (String × String)) (t : String) : List (String × Nat) :=
  (parse_ranking_from_text t).enum.filterMap
    (fun p => (dictGet l2m p.2).map (fun m => (m, p.1 + 1)))

/-- All attribution events of a run, participant by participant. -/
def allEvents (texts : List String) (l2m : List (String × String)) : List (String × Nat) :=
  (texts.map (rankEvents l2m)).flatten

/-- The rank positions attributed to model `m`, in attribution order. -/
def positionsSpec (texts : List String) (l2m : List (String × String)) (m : String) :
    List Nat :=
  ((allEvents texts l2m).filter (fun e => e.1 == m)).map Prod.snd

/-- The mentioned models in order of first attribution. -/
def firstOrder (texts : List String) (l2m : List (String × String)) : List String :=
  pyDedupFirst ((allEvents texts l2m).map Prod.fst)

/-- The aggregate entries before sorting, in order of first attribution. -/
def unsortedAggSpec (texts : List String) (l2m : List (String × String)) : List Agg :=
  (firstOrder texts l2m).map (fun m => mkAggEntry m (positionsSpec texts l2m m))

/-- The number of Stage-2 participants whose parsed ranking mentions a label
mapped to model `m` (what the claim says `rankings_count` equals). -/
def specMentionCount (texts : List String) (l2m : List (String × String)) (m : String) :
    Nat :=
  (texts.filter
    (fun t => (parse_ranking_from_text t).any (fun lab => dictGet l2m lab == some m))).length

/-- The ranking texts of a list of Stage-2 entries (all present when none is
`None`). -/
def rankingTexts (stage2_results : List Stage2Result) : List String :=
  stage2_results.filterMap Stage2Result.ranking

/-- The claimed shape of the streaming progress trace: the five fixed opening
events, then incremental `stage3` text-chunk events, then `complete`. -/
def claimedStreamTrace (events : List String) : Prop :=
  ∃ mid chunks,
    (mid = "stage2_complete" ∨ mid = "stage2_skipped")
    ∧ (∀ c ∈ chunks, c = "stage3")
    ∧ events =
        ["stage1_start", "stage1_complete", "stage2_start", mid, "stage3_start"]
          ++ chunks ++ ["complete"]

/-- Did this gateway call fail (missing credential, or anything but a
well-formed 2xx reply)? -/
def gatewayFailed (apiKey : Option String) (a : Attempt) : Bool :=
  apiKey.isNone ||
    (match a with
     | .ok _ _ => false
     | _ => true)

/-- Was this gateway call's failure an HTTP status error (the only case the
source records a `status_code` for)? -/
def gatewayHttpStatusFailed (apiKey : Option String) (a : Attempt) : Bool :=
  apiKey.isSome &&
    (match a with
     | .httpStatus _ _ => true
     | _ => false)

/-! ### Concrete run environments used by the code-bug demonstrations -/

/-- A run with three council models in which only the Stage-1 call of `m2`
fails (HTTP 500); every other call succeeds. -/
def oneFailWorld : World :=
  ⟨some "k",
    fun m =>
      if m = "m2" then .httpStatus 500 "Internal Server Error"
      else if m = "m1" then .ok (some "r1") none
      else .ok (some "r3") none,
    fun m => .ok (some ("evaluation by " ++ m)) none,
    .ok (some "final synthesis") none,
    .ok (some "a title") none⟩

/-- A run in which every gateway call fails because no API key is configured. -/
def allFailWorld : World :=
  ⟨none, fun _ => .exc "unreachable", fun _ => .exc "unreachable", .exc "unreachable",
    .exc "unreachable"⟩

/-- A run in which Stages 1 and 2 succeed for both council models and only the
Stage-3 chairman call fails (HTTP 500). -/
def chairFailWorld : World :=
  ⟨some "k",
    fun m => .ok (some ("response of " ++ m)) none,
    fun m => .ok (some ("evaluation by " ++ m)) none,
    .httpStatus 500 "Internal Server Error",
    .ok (some "a title") none⟩

/-- A concrete pair of Stage-2 ranking entries (two judges ranking two
anonymized responses in opposite orders). -/
def twoJudges : List Stage2Result :=
  [⟨"j1", some "FINAL RANKING:\n1. Response B\n2. Response A", []⟩,
    ⟨"j2", some "FINAL RANKING:\n1. Response A\n2. Response B", []⟩]

/-- The label-to-model mapping used with `twoJudges`. -/
def twoLabels : List (String × String) := [("Response A", "mX"), ("Response B", "mY")]

/-! ### Lemmas about the Python dict embedding -/

theorem dictInsert_of_not_mem {α : Type} (d : List (String × α)) (k : String) (v : α)
    (h : k ∉ d.map Prod.fst) : dictInsert d k v = d ++ [(k, v)] := by
  unfold dictInsert
  rw [if_neg]
  simp only [List.any_eq_true, beq_iff_eq, not_exists, not_and]
  intro p hp hpk
  exact h (List.mem_map.mpr ⟨p, hp, hpk⟩)

theorem dictInsert_map_fst {α : Type} (d : List (String × α)) (k : String) (v : α) :
    (dictInsert d k v).map Prod.fst =
      if k ∈ d.map Prod.fst then d.map Prod.fst else d.map Prod.fst ++ [k] := by
  by_cases h : k ∈ d.map Prod.fst
  · rw [if_pos h]
    unfold dictInsert
    rw [if_pos]
    · rw [List.map_map]
      apply List.map_congr_left
      intro p _
      by_cases hk : p.1 = k <;> simp [hk]
    · rcases List.mem_map.mp h with ⟨p, hp, hpk⟩
      simp only [List.any_eq_true, beq_iff_eq]
      exact ⟨p, hp, hpk⟩
  · rw [if_neg h, dictInsert_of_not_mem d k v h, List.map_append]
    rfl

theorem foldl_dictInsert_nodup {α : Type} :
    ∀ (ps : List (String × α)) (acc : List (String × α)),
      (acc.map Prod.fst ++ ps.map Prod.fst).Nodup →
      ps.foldl (fun d p => dictInsert d p.1 p.2) acc = acc ++ ps
  | [], acc, _ => by simp
  | p :: ps, acc, h => by
    have hk : p.1 ∉ acc.map Prod.fst := by
      rcases List.nodup_append.mp h with ⟨_, _, hdisj⟩
      intro hmem
      exact hdisj hmem (by simp)
    rw [List.foldl_cons, dictInsert_of_not_mem _ _ _ hk]
    have h' : ((acc ++ [(p.1, p.2)]).map Prod.fst ++ (ps.map Prod.fst)).Nodup := by
      have : acc.map Prod.fst ++ (p :: ps).map Prod.fst =
          (acc ++ [(p.1, p.2)]).map Prod.fst ++ ps.map Prod.fst := by
        simp
      rw [← this]
      exact h
    rw [foldl_dictInsert_nodup ps (acc ++ [(p.1, p.2)]) h']
    simp

theorem dictOfPairs_nodup {α : Type} (ps : List (String × α))
    (h : (ps.map Prod.fst).Nodup) : dictOfPairs ps = ps := by
  have := foldl_dictInsert_nodup ps [] (by simpa using h)
  simpa [dictOfPairs] using this

theorem foldl_dictInsert_map_fst {α : Type} :
    ∀ (ps : List (String × α)) (acc : List (String × α)),
      (ps.foldl (fun d p => dictInsert d p.1 p.2) acc).map Prod.fst =
        (ps.map Prod.fst).foldl (fun acc' m => if m ∈ acc' then acc' else acc' ++ [m])
          (acc.map Prod.fst)
  | [], _ => by simp
  | p :: ps, acc => by
    rw [List.foldl_cons, List.map_cons, List.foldl_cons,
      foldl_dictInsert_map_fst ps (dictInsert acc p.1 p.2), dictInsert_map_fst]

theorem dictOfPairs_map_fst {α : Type} (ps : List (String × α)) :
    (dictOfPairs ps).map Prod.fst = pyDedupFirst (ps.map Prod.fst) := by
  have := foldl_dictInsert_map_fst ps []
  simpa [dictOfPairs, pyDedupFirst] using this

theorem mem_foldl_dedup :
    ∀ (l : List String) (acc : List String) (m : String),
      m ∈ l.foldl (fun acc' x => if x ∈ acc' then acc' else acc' ++ [x]) acc ↔
        m ∈ acc ∨ m ∈ l
  | [], acc, m => by simp
  | x :: l, acc, m => by
    rw [List.foldl_cons, mem_foldl_dedup l _ m]
    by_cases hx : x ∈ acc
    · simp only [if_pos hx]
      constructor
      · rintro (h | h)
        · exact Or.inl h
        · exact Or.inr (by simp [h])
      · rintro (h | h)
        · exact Or.inl h
        · rcases List.mem_cons.mp h with rfl | h'
          · exact Or.inl hx
          · exact Or.inr h'
    · simp only [if_neg hx, List.mem_append, List.mem_singleton, List.mem_cons]
      tauto

theorem mem_pyDedupFirst (l : List String) (m : String) :
    m ∈ pyDedupFirst l ↔ m ∈ l := by
  have := mem_foldl_dedup l [] m
  simpa [pyDedupFirst] using this

theorem pyDedupFirst_append_singleton (l : List String) (m : String) :
    pyDedupFirst (l ++ [m]) =
      if m ∈ l then pyDedupFirst l else pyDedupFirst l ++ [m] := by
  have h1 : pyDedupFirst (l ++ [m]) =
      if m ∈ pyDedupFirst l then pyDedupFirst l else pyDedupFirst l ++ [m] := by
    simp only [pyDedupFirst, List.foldl_append, List.foldl_cons, List.foldl_nil]
  rw [h1]
  by_cases h : m ∈ l
  · rw [if_pos ((mem_pyDedupFirst l m).mpr h), if_pos h]
  · rw [if_neg (fun hc => h ((mem_pyDedupFirst l m).mp hc)), if_neg h]

/-! ### Claim C6 -/

/-- C6 (corrected): `query_models_parallel` collapses its per-call outcome list
into a dict keyed by model identifier, so the result has one entry per
DISTINCT identifier, in first-appearance order; when the input list has no
duplicate identifiers the result is exactly one outcome per input entry in
order, and an errored model still appears (its outcome, error field included,
is whatever the gateway returned).  Duplicate identifiers collapse into a
single entry instead of producing duplicate independent outcomes. -/
theorem query_models_parallel_per_entry {α : Type} (models : List String) (rs : List α)
    (hlen : rs.length = models.length) :
    (query_models_parallel models rs).map Prod.fst = pyDedupFirst models
    ∧ (models.Nodup → query_models_parallel models rs = models.zip rs) := by
  constructor
  · rw [query_models_parallel, dictOfPairs_map_fst,
      List.map_fst_zip models rs (le_of_eq hlen.symm)]
  · intro hnd
    apply dictOfPairs_nodup
    rw [List.map_fst_zip models rs (le_of_eq hlen.symm)]
    exact hnd

/-- Witness for C6: a concrete duplicate-free fan-out, hypotheses discharged. -/
theorem query_models_parallel_per_entry_witness :
    (query_models_parallel ["m1", "m2"]
        [query_model (some "k") (.ok (some "x") none),
          query_model (some "k") (.httpStatus 500 "boom")]).map Prod.fst =
      pyDedupFirst ["m1", "m2"]
    ∧ query_models_parallel ["m1", "m2"]
        [query_model (some "k") (.ok (some "x") none),
          query_model (some "k") (.httpStatus 500 "boom")] =
      ["m1", "m2"].zip
        [query_model (some "k") (.ok (some "x") none),
          query_model (some "k") (.httpStatus 500 "boom")] :=
  ⟨(query_models_parallel_per_entry _ _ (by decide)).1,
    (query_models_parallel_per_entry _ _ (by decide)).2 (by decide)⟩

/-- Counterexample for C6 as stated: two calls to the same model produce ONE
dict entry (the later outcome overwrites the earlier), not two independent
outcomes; a result is dropped. -/
theorem query_models_parallel_duplicates_collapse :
    query_models_parallel ["m", "m"]
        [query_model (some "k") (.ok (some "x") none),
          query_model (some "k") (.httpStatus 500 "boom")] =
      [("m", query_model (some "k") (.httpStatus 500 "boom"))]
    ∧ (query_models_parallel ["m", "m"]
        [query_model (some "k") (.ok (some "x") none),
          query_model (some "k") (.httpStatus 500 "boom")]).length ≠
      (["m", "m"] : List String).length := by
  exact ⟨rfl, by decide⟩

/-! ### Claim C9 -/

/-- C9 (confirmed): `query_model` is a total function — failures are data, not
control flow.  On any failure (missing provider credential, HTTP status error,
or any other exception: network error, timeout, malformed payload) it returns
a response with `content` absent, an error message present, and `status_code`
present exactly when the failure was an HTTP status error; on success it
returns the provider's content with `error` absent. -/
theorem query_model_failures_are_data (apiKey : Option String) (a : Attempt) :
    (gatewayFailed apiKey a = true →
      (query_model apiKey a).content = none
      ∧ (query_model apiKey a).error ≠ none
      ∧ ((query_model apiKey a).status_code ≠ none ↔
          gatewayHttpStatusFailed apiKey a = true))
    ∧ (gatewayFailed apiKey a = false →
      ∃ c r, a = .ok c r ∧ query_model apiKey a = ⟨c, r, none, none⟩) := by
  cases apiKey <;> cases a <;>
    simp [query_model, gatewayFailed, gatewayHttpStatusFailed]

/-- Witness for C9 at a concrete HTTP-status failure. -/
theorem query_model_failures_are_data_witness :
    (query_model (some "k") (.httpStatus 404 "not found")).content = none
    ∧ (query_model (some "k") (.httpStatus 404 "not found")).error ≠ none
    ∧ ((query_model (some "k") (.httpStatus 404 "not found")).status_code ≠ none ↔
        gatewayHttpStatusFailed (some "k") (.httpStatus 404 "not found") = true) :=
  (query_model_failures_are_data (some "k") (.httpStatus 404 "not found")).1 (by decide)

/-! ### Claim C10 -/

/-- C10 (confirmed): when the title-generation gateway call fails (including a
missing API key), `query_model` reports the failure as a dict whose `content`
key holds `None` — never as `None` itself — so `generate_conversation_title`'s
`response is None` fallback is skipped, `response.get('content', 'New
Conversation')` evaluates to `None`, and the `.strip()` call raises
`AttributeError` instead of returning the fallback title. -/
theorem generate_conversation_title_raises (apiKey : Option String) (a : Attempt)
    (h : gatewayFailed apiKey a = true) :
    (query_model apiKey a).content = none
    ∧ generate_conversation_title (some (query_model apiKey a)) =
        Except.error attributeErrorMsg
    ∧ generate_conversation_title (some (query_model apiKey a)) ≠
        Except.ok "New Conversation" := by
  cases apiKey <;> cases a <;>
    simp_all [query_model, generate_conversation_title, gatewayFailed]

/-- Witness for C10 at a concrete failed title call (no API key configured). -/
theorem generate_conversation_title_raises_witness :
    (query_model none (.exc "timeout")).content = none
    ∧ generate_conversation_title (some (query_model none (.exc "timeout"))) =
        Except.error attributeErrorMsg
    ∧ generate_conversation_title (some (query_model none (.exc "timeout"))) ≠
        Except.ok "New Conversation" :=
  generate_conversation_title_raises none (.exc "timeout") (by decide)

/-! ### Claim C1 -/

/-- C1 (code bug): a council model whose Stage-1 gateway call fails is NOT
excluded from downstream processing.  With council `[m1, m2, m3]` and only
`m2` failing, `stage1_collect_responses` returns all three entries — the
failed one with response `None` — because `query_model` never returns `None`
and the `if response is not None` filter therefore never fires; the failed
model receives the anonymized label `Response B` and its `None` response is
interpolated into the Stage-2 prompt.  (The run metadata built by
`run_full_council` has no `stage1Errors` field at all.) -/
theorem stage1_includes_failed_model :
    stage1_collect_responses oneFailWorld (some ["m1", "m2", "m3"]) =
      [⟨"m1", some "r1"⟩, ⟨"m2", none⟩, ⟨"m3", some "r3"⟩]
    ∧ label_to_model (stage1_collect_responses oneFailWorld (some ["m1", "m2", "m3"])) =
      [("Response A", "m1"), ("Response B", "m2"), ("Response C", "m3")]
    ∧ (findFirst ("Response B:\nNone").toList
        (stage2_responses_text
          (stage1_collect_responses oneFailWorld (some ["m1", "m2", "m3"]))).toList).isSome =
      true :=
  ⟨rfl, rfl, rfl⟩

/-! ### Claim C2 -/

/-- C2 (code bug): when zero Stage-1 gateway calls succeed, `run_full_council`
does NOT short-circuit to the synthetic failure result.  `query_model` never
returns `None`, so `stage1_collect_responses` returns one failure entry per
model and the `if not stage1_results` guard is false; the run proceeds to
issue the Stage-2 gateway calls and then raises `TypeError` when
`parse_ranking_from_text` is applied to a failed call's `None` content —
instead of returning the `_return_error` value. -/
theorem all_failed_run_raises :
    stage1_collect_responses allFailWorld (some ["m1", "m2", "m3"]) =
      [⟨"m1", none⟩, ⟨"m2", none⟩, ⟨"m3", none⟩]
    ∧ run_full_council allFailWorld "standard" (some ["m1", "m2", "m3"]) none =
      Except.error typeErrorMsg
    ∧ run_full_council allFailWorld "standard" (some ["m1", "m2", "m3"]) none ≠
      Except.ok return_error := by
  refine ⟨rfl, rfl, ?_⟩
  intro h
  rw [show run_full_council allFailWorld "standard" (some ["m1", "m2", "m3"]) none =
      Except.error typeErrorMsg from rfl] at h
  exact Except.noConfusion h

/-! ### Claim C7 -/

/-- C7 (code bug): when the Stage-3 chairman gateway call fails, the run as a
whole does not fail and callers still receive the Stage-1 and Stage-2 data,
but the result is NOT the fixed apology: `query_model` returns an error dict
rather than `None`, the `response is None` fallback of
`stage3_synthesize_final` is skipped, and the synthesized response field is
`None`. -/
theorem stage3_failure_returns_none_not_apology :
    run_full_council chairFailWorld "standard" (some ["m1", "m2"]) none =
      Except.ok
        ([⟨"m1", some "response of m1"⟩, ⟨"m2", some "response of m2"⟩],
          [⟨"m1", some "evaluation by m1", []⟩, ⟨"m2", some "evaluation by m2", []⟩],
          ⟨CHAIRMAN_MODEL, none⟩,
          .meta "standard" ["m1", "m2"] CHAIRMAN_MODEL
            [("Response A", "m1"), ("Response B", "m2")] [])
    ∧ (⟨CHAIRMAN_MODEL, none⟩ : Stage3Result).response ≠
      some "Error: Unable to generate final synthesis." := by
  exact ⟨rfl, by decide⟩

/-! ### Claim C8 -/

/-- Counterexample for C8 as stated: the streaming generator emits a single
`stage3_complete` event carrying the whole synthesis — there are no
incremental `stage3` text-chunk events between `stage3_start` and `complete`,
so the claimed trace shape is not matched. -/
theorem stream_trace_has_no_stage3_chunks :
    event_generator "standard" false =
      ["stage1_start", "stage1_complete", "stage2_start", "stage2_complete",
        "stage3_start", "stage3_complete", "complete"]
    ∧ ¬ claimedStreamTrace (event_generator "standard" false) := by
  refine ⟨rfl, ?_⟩
  rintro ⟨mid, chunks, _, hall, heq⟩
  rw [show event_generator "standard" false =
      ["stage1_start", "stage1_complete", "stage2_start", "stage2_complete",
        "stage3_start", "stage3_complete", "complete"] from rfl] at heq
  have hlen := congrArg List.length heq
  simp only [List.length_cons, List.length_append, List.length_nil] at hlen
  have hc : chunks.length = 1 := by omega
  obtain ⟨c, rfl⟩ := List.length_eq_one.mp hc
  have h5 := congrArg (fun l => l.getD 5 "") heq
  simp only [List.cons_append, List.nil_append, List.getD_cons_succ,
    List.getD_cons_zero] at h5
  have hc3 := hall c (by simp)
  rw [hc3] at h5
  exact absurd h5 (by decide)

/-- C8 (corrected): on the exception-free path the streaming generator emits,
in order, `stage1_start`, `stage1_complete`, `stage2_start`, then
`stage2_skipped` (ensemble) or `stage2_complete` (otherwise), `stage3_start`,
one `stage3_complete` event carrying the full synthesis (no incremental
`stage3` chunks), `title_complete` when the message was the conversation's
first, and finally `complete`. -/
theorem event_generator_order (framework : String) (is_first_message : Bool) :
    event_generator framework is_first_message =
      ["stage1_start", "stage1_complete", "stage2_start",
          if framework == "ensemble" then "stage2_skipped" else "stage2_complete",
          "stage3_start", "stage3_complete"]
        ++ (if is_first_message then ["title_complete"] else []) ++ ["complete"]
    ∧ (event_generator framework is_first_message).getLast? = some "complete"
    ∧ "stage3" ∉ event_generator framework is_first_message
    ∧ (event_generator framework is_first_message).count "stage3_complete" = 1 := by
  cases is_first_message <;> cases hb : (framework == "ensemble") <;>
    simp [event_generator, hb]

/-! ### Claim C5 -/

theorem makeLabels_length (n : Nat) : (makeLabels n).length = n := by
  simp [makeLabels]

theorem makeLabels_eq_take {n : Nat} (h : n ≤ 26) :
    makeLabels n = (makeLabels 26).take n := by
  unfold makeLabels
  rw [← List.map_take, List.take_range]
  congr 2
  omega

theorem makeLabels_26_nodup : (makeLabels 26).Nodup := by decide

theorem makeLabels_26_upper : ∀ c ∈ makeLabels 26, 'A' ≤ c ∧ c ≤ 'Z' := by decide

theorem makeLabels_nodup {n : Nat} (h : n ≤ 26) : (makeLabels n).Nodup := by
  rw [makeLabels_eq_take h]
  exact (List.take_sublist n _).nodup makeLabels_26_nodup

theorem makeLabels_upper {n : Nat} (h : n ≤ 26) :
    ∀ c ∈ makeLabels n, 'A' ≤ c ∧ c ≤ 'Z' := by
  intro c hc
  rw [makeLabels_eq_take h] at hc
  exact makeLabels_26_upper c (List.take_subset n _ hc)

theorem labelString_injective : Function.Injective labelString := by
  intro c d h
  have h2 := congrArg String.data h
  simp only [labelString, String.data_append] at h2
  have h3 := List.append_cancel_left h2
  simpa using h3

/-- C5 (corrected): for every non-empty sequence of at most 26 successful
Stage-1 outcomes with pairwise-distinct model identifiers (which is what a
run produces, since the outcomes are the entries of a dict keyed by model),
the label mapping assigns the single uppercase letters `A, B, C, ...` in
input order with no gaps and no repeats, and the resulting
`Response <Label>` to model-identifier mapping is a bijection over the
outcomes: keys and values are each duplicate-free and the values are exactly
the models in order.  (Beyond 26 outcomes the source's `chr(65 + i)` leaves
the uppercase alphabet — see the counterexample.) -/
theorem label_mapping_is_bijection (s : List Stage1Result) (_hne : s ≠ [])
    (h26 : s.length ≤ 26) (hnd : (s.map Stage1Result.model).Nodup) :
    label_to_model s =
      s.enum.map (fun p => (labelString (Char.ofNat (65 + p.1)), p.2.model))
    ∧ ((label_to_model s).map Prod.fst).Nodup
    ∧ (label_to_model s).map Prod.snd = s.map Stage1Result.model
    ∧ ((label_to_model s).map Prod.snd).Nodup
    ∧ (∀ c ∈ makeLabels s.length, 'A' ≤ c ∧ c ≤ 'Z') := by
  have hlen : (makeLabels s.length).length = s.length := makeLabels_length _
  set pairs := ((makeLabels s.length).zip s).map (fun p => (labelString p.1, p.2.model))
    with hpairs
  have hkeys : pairs.map Prod.fst = (makeLabels s.length).map labelString := by
    rw [hpairs, List.map_map]
    have hcomp : (Prod.fst ∘ fun p : Char × Stage1Result => (labelString p.1, p.2.model)) =
        (labelString ∘ Prod.fst) := rfl
    rw [hcomp, ← List.map_map, List.map_fst_zip _ _ (le_of_eq hlen)]
  have hkeys_nodup : (pairs.map Prod.fst).Nodup := by
    rw [hkeys]
    exact (makeLabels_nodup h26).map labelString_injective
  have hdict : label_to_model s = pairs := dictOfPairs_nodup pairs hkeys_nodup
  have hvalues : pairs.map Prod.snd = s.map Stage1Result.model := by
    rw [hpairs, List.map_map]
    have hcomp : (Prod.snd ∘ fun p : Char × Stage1Result => (labelString p.1, p.2.model)) =
        (Stage1Result.model ∘ Prod.snd) := rfl
    rw [hcomp, ← List.map_map, List.map_snd_zip _ _ (le_of_eq hlen.symm)]
  have henum : pairs =
      s.enum.map (fun p => (labelString (Char.ofNat (65 + p.1)), p.2.model)) := by
    rw [hpairs]
    unfold makeLabels
    rw [List.zip_map_left, List.map_map, List.enum_eq_zip_range]
    rfl
  refine ⟨hdict.trans henum, ?_, ?_, ?_, makeLabels_upper h26⟩
  · rw [hdict]
    exact hkeys_nodup
  · rw [hdict]
    exact hvalues
  · rw [hdict, hvalues]
    exact hnd

/-- Witness for C5 at a concrete two-model run. -/
theorem label_mapping_is_bijection_witness :
    label_to_model [⟨"m1", some "r"⟩, ⟨"m2", none⟩] =
      ([⟨"m1", some "r"⟩, ⟨"m2", none⟩] : List Stage1Result).enum.map
        (fun p => (labelString (Char.ofNat (65 + p.1)), p.2.model))
    ∧ ((label_to_model [⟨"m1", some "r"⟩, ⟨"m2", none⟩]).map Prod.fst).Nodup
    ∧ (label_to_model [⟨"m1", some "r"⟩, ⟨"m2", none⟩]).map Prod.snd =
      ([⟨"m1", some "r"⟩, ⟨"m2", none⟩] : List Stage1Result).map Stage1Result.model
    ∧ ((label_to_model [⟨"m1", some "r"⟩, ⟨"m2", none⟩]).map Prod.snd).Nodup
    ∧ (∀ c ∈ makeLabels ([⟨"m1", some "r"⟩, ⟨"m2", none⟩] : List Stage1Result).length,
        'A' ≤ c ∧ c ≤ 'Z') :=
  label_mapping_is_bijection [⟨"m1", some "r"⟩, ⟨"m2", none⟩]
    (by decide) (by decide) (by decide)

/-- Counterexample for C5 as stated: with 27 successful outcomes the 27th
label is `chr(65 + 26) = '['`, which is not a single uppercase letter, yet it
is assigned and appears in the mapping. -/
theorem label_27_not_uppercase :
    (labelString '[', "m") ∈
      label_to_model (List.replicate 27 (⟨"m", some "r"⟩ : Stage1Result))
    ∧ ¬ ('A' ≤ '[' ∧ '[' ≤ 'Z') :=
  ⟨by decide, by decide⟩

/-! ### Claim C3 -/

theorem pySplitAux_skip (sep : List Char) :
    ∀ (s : List Char) (k : Nat), pySplitAux sep s k = pySplitAux sep (s.drop k) 0
  | [], 0 => rfl
  | [], _ + 1 => rfl
  | _ :: _, 0 => rfl
  | _ :: rest, k + 1 => pySplitAux_skip sep rest k

theorem pySplitAux_ne_nil (sep : List Char) :
    ∀ (s : List Char) (k : Nat), pySplitAux sep s k ≠ []
  | [], 0 => by simp [pySplitAux]
  | [], _ + 1 => by simp [pySplitAux]
  | _ :: rest, k + 1 => pySplitAux_ne_nil sep rest k
  | c :: rest, 0 => by
    unfold pySplitAux
    split
    · simp
    · split
      · simp
      · simp

theorem pySplit_eq_findFirst (sep : List Char) (hsep : sep ≠ []) :
    ∀ cs : List Char,
      pySplit sep cs =
        match findFirst sep cs with
        | none => [cs]
        | some (pre, suf) => pre :: pySplit sep suf
  | [] => by simp [pySplit, pySplitAux, findFirst]
  | c :: rest => by
    rw [pySplit]
    by_cases h : startsWithSeq sep (c :: rest) = true
    · rw [show pySplitAux sep (c :: rest) 0 =
          [] :: pySplitAux sep rest (sep.length - 1) from by
            simp only [pySplitAux]
            rw [if_pos h]]
      rw [pySplitAux_skip sep rest (sep.length - 1)]
      rw [show findFirst sep (c :: rest) = some ([], (c :: rest).drop sep.length) from by
            simp only [findFirst]
            rw [if_pos h]]
      obtain ⟨p, ps, rfl⟩ : ∃ p ps, sep = p :: ps := by
        cases sep with
        | nil => exact absurd rfl hsep
        | cons p ps => exact ⟨p, ps, rfl⟩
      simp [pySplit]
    · have hne := pySplitAux_ne_nil sep rest 0
      rw [show pySplitAux sep (c :: rest) 0 =
          (match pySplitAux sep rest 0 with
            | [] => [[c]]
            | p :: ps => (c :: p) :: ps) from by
            simp only [pySplitAux]
            rw [if_neg h]]
      have hrec := pySplit_eq_findFirst sep hsep rest
      rw [pySplit] at hrec
      rw [show findFirst sep (c :: rest) =
          (match findFirst sep rest with
            | some (pre, suf) => some (c :: pre, suf)
            | none => none) from by
            simp only [findFirst]
            rw [if_neg h]]
      cases hf : findFirst sep rest with
      | none =>
        rw [hf] at hrec
        rw [hrec]
      | some pr =>
        obtain ⟨pre, suf⟩ := pr
        rw [hf] at hrec
        rw [hrec]

theorem parse_eq_amendedParse (s : String) :
    parse_ranking_from_text s = amendedParse s := by
  have hmain := pySplit_eq_findFirst MARKER (by decide)
  unfold parse_ranking_from_text amendedParse
  simp only [String.toList]
  cases hf : findFirst MARKER s.data with
  | none => simp [hf]
  | some pr =>
    obtain ⟨pre, suf⟩ := pr
    have h1 : pySplit MARKER s.data = pre :: pySplit MARKER suf := by
      rw [hmain s.data, hf]
    cases hf2 : findFirst MARKER suf with
    | none =>
      have h2 : pySplit MARKER s.data = [pre, suf] := by
        rw [h1]
        rw [hmain suf, hf2]
      simp [hf, hf2, h2]
    | some pr2 =>
      obtain ⟨pre2, suf2⟩ := pr2
      have h2 : pySplit MARKER s.data = pre :: pre2 :: pySplit MARKER suf2 := by
        rw [h1]
        rw [hmain suf, hf2]
      simp [hf, hf2, h2]

/-- C3 (corrected): `parse_ranking_from_text` is total and implements the
priority algorithm of the claim with one correction: when the marker appears,
the ranking section is `split("FINAL RANKING:")[1]` — the text after the
FIRST occurrence and before the NEXT occurrence (if any) — not everything
after the first occurrence.  Within that section the numbered entries are
collected in order and their `Response <letter>` parts returned; if none
match, all `Response <letter>` occurrences of the section are returned; if
the marker is absent, all occurrences of the whole text; no deduplication is
performed; absence of structure yields the empty sequence.  The concrete
conjuncts are the claim's round-trip example, the empty-structure case, and
the no-deduplication behavior. -/
theorem parse_ranking_algorithm :
    (∀ s : String, parse_ranking_from_text s = amendedParse s)
    ∧ parse_ranking_from_text "FINAL RANKING:\n1. Response C\n2. Response A\n3. Response B" =
      ["Response C", "Response A", "Response B"]
    ∧ parse_ranking_from_text "no structure at all" = []
    ∧ parse_ranking_from_text "FINAL RANKING:\n1. Response A\n2. Response A" =
      ["Response A", "Response A"] :=
  ⟨parse_eq_amendedParse, by decide, by decide, by decide⟩

/-- Counterexample for C3 as stated: with two occurrences of the marker, the
code's ranking section stops at the second occurrence (Python
`split(...)[1]`), so nothing is extracted, whereas the claimed
everything-after-the-first-occurrence section would yield `Response B`. -/
theorem parse_section_not_whole_tail :
    parse_ranking_from_text "FINAL RANKING: pending FINAL RANKING:\n1. Response B" = []
    ∧ claimParse "FINAL RANKING: pending FINAL RANKING:\n1. Response B" = ["Response B"]
    ∧ parse_ranking_from_text "FINAL RANKING: pending FINAL RANKING:\n1. Response B" ≠
      claimParse "FINAL RANKING: pending FINAL RANKING:\n1. Response B" :=
  ⟨by decide, by decide, by decide⟩

/-! ### Claim C4 -/

theorem foldl_attr_eq (l2m : List (String × String)) :
    ∀ (l : List (Nat × String)) (d : List (String × List Nat)),
      l.foldl
        (fun d' p =>
          match dictGet l2m p.2 with
          | some m => dictAppendPos d' m (p.1 + 1)
          | none => d')
        d
      = (l.filterMap (fun p => (dictGet l2m p.2).map (fun m => (m, p.1 + 1)))).foldl
          (fun d' e => dictAppendPos d' e.1 e.2) d
  | [], _ => rfl
  | p :: l, d => by
    cases hm : dictGet l2m p.2 with
    | none =>
      simp only [List.foldl_cons, List.filterMap_cons, hm, Option.map_none']
      exact foldl_attr_eq l2m l d
    | some m =>
      simp only [List.foldl_cons, List.filterMap_cons, hm, Option.map_some']
      exact foldl_attr_eq l2m l (dictAppendPos d m (p.1 + 1))

theorem foldl_attributeText_eq (l2m : List (String × String)) :
    ∀ (texts : List String) (d : List (String × List Nat)),
      texts.foldl (attributeText l2m) d =
        ((texts.map (rankEvents l2m)).flatten).foldl
          (fun d' e => dictAppendPos d' e.1 e.2) d
  | [], _ => rfl
  | t :: texts, d => by
    rw [List.foldl_cons, List.map_cons, List.flatten_cons, List.foldl_append]
    rw [show attributeText l2m d t =
        (rankEvents l2m t).foldl (fun d' e => dictAppendPos d' e.1 e.2) d from
      foldl_attr_eq l2m (parse_ranking_from_text t).enum d]
    exact foldl_attributeText_eq l2m texts _

theorem modelPositions_eq_events (texts : List String) (l2m : List (String × String)) :
    modelPositions texts l2m =
      (allEvents texts l2m).foldl (fun d e => dictAppendPos d e.1 e.2) [] :=
  foldl_attributeText_eq l2m texts []

theorem dictAppendPos_of_not_mem (d : List (String × List Nat)) (k : String) (v : Nat)
    (h : k ∉ d.map Prod.fst) : dictAppendPos d k v = d ++ [(k, [v])] := by
  unfold dictAppendPos
  rw [if_neg]
  simp only [List.any_eq_true, beq_iff_eq, not_exists, not_and]
  intro p hp hpk
  exact h (List.mem_map.mpr ⟨p, hp, hpk⟩)

theorem foldl_dictAppendPos (evs : List (String × Nat)) :
    evs.foldl (fun d e => dictAppendPos d e.1 e.2) [] =
      (pyDedupFirst (evs.map Prod.fst)).map
        (fun m => (m, (evs.filter (fun e => e.1 == m)).map Prod.snd)) := by
  induction evs using List.reverseRecOn with
  | nil => rfl
  | append_singleton evs e ih =>
    obtain ⟨k, v⟩ := e
    rw [List.foldl_append, List.foldl_cons, List.foldl_nil, ih]
    have hkeys : (evs ++ [(k, v)]).map Prod.fst = evs.map Prod.fst ++ [k] := by simp
    by_cases hk : k ∈ evs.map Prod.fst
    · have hmem : k ∈ pyDedupFirst (evs.map Prod.fst) := (mem_pyDedupFirst _ _).mpr hk
      have hany : ((pyDedupFirst (evs.map Prod.fst)).map
          (fun m => (m, (evs.filter (fun e => e.1 == m)).map Prod.snd))).any
            (fun p => p.1 == k) = true := by
        simp only [List.any_eq_true, beq_iff_eq]
        exact ⟨(k, (evs.filter (fun e => e.1 == k)).map Prod.snd),
          List.mem_map.mpr ⟨k, hmem, rfl⟩, rfl⟩
      rw [dictAppendPos, if_pos hany, List.map_map, hkeys,
        pyDedupFirst_append_singleton, if_pos hk]
      apply List.map_congr_left
      intro m _
      by_cases hmk : m = k
      · subst hmk
        simp [List.filter_append]
      · simp [List.filter_append, hmk, Ne.symm hmk]
    · have hnotmem : k ∉ pyDedupFirst (evs.map Prod.fst) :=
        fun hc => hk ((mem_pyDedupFirst _ _).mp hc)
      have hfilter : evs.filter (fun e => e.1 == k) = [] := by
        rw [List.filter_eq_nil_iff]
        intro e he
        simp only [beq_iff_eq]
        intro hek
        exact hk (List.mem_map.mpr ⟨e, he, hek⟩)
      rw [dictAppendPos_of_not_mem _ _ _ (by
          simp only [List.map_map]
          intro hc
          rcases List.mem_map.mp hc with ⟨m, hm, hmk⟩
          exact hnotmem (by simpa [← hmk] using hm)),
        hkeys, pyDedupFirst_append_singleton, if_neg hk, List.map_append]
      congr 1
      · apply List.map_congr_left
        intro m hm
        have hmk : m ≠ k := fun h => hnotmem (h ▸ hm)
        simp [List.filter_append, Ne.symm hmk]
      · simp [List.filter_append, hfilter]

theorem foldl_agg_map :
    ∀ (l : List (String × List Nat)) (acc : List Agg), (∀ p ∈ l, p.2 ≠ []) →
      l.foldl (fun acc' p => if p.2.isEmpty then acc' else acc' ++ [mkAggEntry p.1 p.2])
          acc
        = acc ++ l.map (fun p => mkAggEntry p.1 p.2)
  | [], acc, _ => by simp
  | p :: l, acc, h => by
    have hp : p.2 ≠ [] := h p (by simp)
    rw [List.foldl_cons, if_neg (by simpa using hp)]
    rw [foldl_agg_map l _ (fun q hq => h q (by simp [hq]))]
    simp

theorem filter_orderedInsert_avg (q : ℚ) (a : Agg) :
    ∀ l : List Agg,
      (List.orderedInsert aggle a l).filter (fun x => decide (x.average_rank = q)) =
        if a.average_rank = q then
          a :: l.filter (fun x => decide (x.average_rank = q))
        else l.filter (fun x => decide (x.average_rank = q))
  | [] => by
    by_cases h : a.average_rank = q <;> simp [List.orderedInsert, h]
  | b :: l => by
    rw [List.orderedInsert]
    by_cases hab : aggle a b
    · rw [if_pos hab]
      by_cases h : a.average_rank = q <;> simp [List.filter_cons, h]
    · rw [if_neg hab, List.filter_cons]
      by_cases hbq : b.average_rank = q
      · have haq : a.average_rank ≠ q := by
          intro hq
          exact hab (show a.average_rank ≤ b.average_rank by rw [hq, hbq])
        rw [filter_orderedInsert_avg q a l]
        simp [hbq, haq, List.filter_cons]
      · rw [filter_orderedInsert_avg q a l]
        by_cases h : a.average_rank = q <;> simp [hbq, h, List.filter_cons]

theorem filter_insertionSort_avg (q : ℚ) :
    ∀ l : List Agg,
      (List.insertionSort aggle l).filter (fun x => decide (x.average_rank = q)) =
        l.filter (fun x => decide (x.average_rank = q))
  | [] => rfl
  | a :: l => by
    rw [List.insertionSort, filter_orderedInsert_avg, filter_insertionSort_avg q l,
      List.filter_cons]
    by_cases h : a.average_rank = q <;> simp [h]

theorem mapM_ranking_of_some :
    ∀ (l : List Stage2Result), (∀ e ∈ l, e.ranking ≠ none) →
      (l.mapM (fun e =>
        match e.ranking with
        | some t => Except.ok t
        | none => (Except.error typeErrorMsg : Except String String)))
        = Except.ok (l.filterMap Stage2Result.ranking)
  | [], _ => rfl
  | e :: l, h => by
    obtain ⟨t, ht⟩ : ∃ t, e.ranking = some t := by
      cases hr : e.ranking with
      | none => exact absurd hr (h e (by simp))
      | some t => exact ⟨t, rfl⟩
    rw [List.mapM_cons, mapM_ranking_of_some l (fun q hq => h q (by simp [hq]))]
    simp only [ht, List.filterMap_cons]
    rfl

theorem positionsSpec_ne_nil_of_mem (texts : List String) (l2m : List (String × String))
    (m : String) (h : m ∈ firstOrder texts l2m) : positionsSpec texts l2m m ≠ [] := by
  have hm : m ∈ (allEvents texts l2m).map Prod.fst := (mem_pyDedupFirst _ _).mp h
  obtain ⟨e, he, hek⟩ := List.mem_map.mp hm
  intro hc
  rw [positionsSpec, List.map_eq_nil_iff, List.filter_eq_nil_iff] at hc
  exact hc e he (by simp [hek])

theorem unsortedAggSpec_eq (texts : List String) (l2m : List (String × String)) :
    (modelPositions texts l2m).foldl
        (fun acc p => if p.2.isEmpty then acc else acc ++ [mkAggEntry p.1 p.2]) [] =
      unsortedAggSpec texts l2m := by
  rw [modelPositions_eq_events, foldl_dictAppendPos]
  rw [foldl_agg_map _ _ ?hne]
  case hne =>
    intro p hp
    rcases List.mem_map.mp hp with ⟨m, hm, rfl⟩
    exact positionsSpec_ne_nil_of_mem texts l2m m hm
  rw [List.nil_append, List.map_map]
  rfl

/-- C4 (corrected): for every input to `calculate_aggregate_rankings` whose
ranking texts are all present, the output is the stable ascending sort (by
`average_rank`) of one entry per model mentioned by some parsed ranking, in
order of first attribution; each entry's `rankings_count` is the NUMBER OF
RANK POSITIONS attributed to that model across all participants (one per
occurrence of its label — equal to the number of mentioning participants only
when no participant's parsed ranking repeats the label); `average_rank` is
the mean of those 1-based positions rounded to 2 decimals; labels not in the
label-to-model mapping are silently skipped (`positionsSpec` only counts
mapped labels); sorting is ascending with ties left in first-attribution
order (the filter characterization); and models never mentioned are absent
from the output. -/
theorem calculate_aggregate_rankings_spec (stage2_results : List Stage2Result)
    (l2m : List (String × String)) (h : ∀ e ∈ stage2_results, e.ranking ≠ none) :
    calculate_aggregate_rankings stage2_results l2m =
      Except.ok (List.insertionSort aggle
        (unsortedAggSpec (rankingTexts stage2_results) l2m))
    ∧ (∀ a ∈ List.insertionSort aggle (unsortedAggSpec (rankingTexts stage2_results) l2m),
        a.rankings_count = (positionsSpec (rankingTexts stage2_results) l2m a.model).length
        ∧ 1 ≤ a.rankings_count
        ∧ a.average_rank =
          round2 (((positionsSpec (rankingTexts stage2_results) l2m a.model).sum : ℚ) /
            ((positionsSpec (rankingTexts stage2_results) l2m a.model).length : ℚ)))
    ∧ List.Sorted aggle
        (List.insertionSort aggle (unsortedAggSpec (rankingTexts stage2_results) l2m))
    ∧ (∀ q : ℚ,
        (List.insertionSort aggle
            (unsortedAggSpec (rankingTexts stage2_results) l2m)).filter
            (fun a => decide (a.average_rank = q)) =
          (unsortedAggSpec (rankingTexts stage2_results) l2m).filter
            (fun a => decide (a.average_rank = q)))
    ∧ (∀ m : String,
        (∃ a ∈ List.insertionSort aggle
            (unsortedAggSpec (rankingTexts stage2_results) l2m), a.model = m)
          ↔ positionsSpec (rankingTexts stage2_results) l2m m ≠ []) := by
  have hmem : ∀ a : Agg,
      a ∈ List.insertionSort aggle (unsortedAggSpec (rankingTexts stage2_results) l2m) ↔
        a ∈ unsortedAggSpec (rankingTexts stage2_results) l2m :=
    fun a => (List.perm_insertionSort aggle _).mem_iff
  refine ⟨?_, ?_, List.sorted_insertionSort aggle _, fun q => filter_insertionSort_avg q _,
    ?_⟩
  · rw [calculate_aggregate_rankings, mapM_ranking_of_some stage2_results h]
    show Except.ok (calcAggPure (rankingTexts stage2_results) l2m) =
      Except.ok (List.insertionSort aggle (unsortedAggSpec (rankingTexts stage2_results) l2m))
    exact congrArg Except.ok (by rw [calcAggPure, unsortedAggSpec_eq])
  · intro a ha
    rcases List.mem_map.mp ((hmem a).mp ha) with ⟨m, hm, rfl⟩
    refine ⟨rfl, ?_, rfl⟩
    have := positionsSpec_ne_nil_of_mem (rankingTexts stage2_results) l2m m hm
    simpa [mkAggEntry, Nat.succ_le_iff, List.length_pos] using this
  · intro m
    constructor
    · rintro ⟨a, ha, rfl⟩
      rcases List.mem_map.mp ((hmem a).mp ha) with ⟨m', hm', rfl⟩
      exact positionsSpec_ne_nil_of_mem (rankingTexts stage2_results) l2m m' hm'
    · intro hne
      have hm : m ∈ firstOrder (rankingTexts stage2_results) l2m := by
        rw [firstOrder, mem_pyDedupFirst]
        by_contra hc
        apply hne
        rw [positionsSpec, List.map_eq_nil_iff, List.filter_eq_nil_iff]
        intro e he
        simp only [beq_iff_eq, decide_eq_true_eq]
        intro hek
        exact hc (List.mem_map.mpr ⟨e, he, hek⟩)
      exact ⟨mkAggEntry m (positionsSpec (rankingTexts stage2_results) l2m m),
        (hmem _).mpr (List.mem_map.mpr ⟨m, hm, rfl⟩), rfl⟩

/-- Witness for C4 at the concrete two-judge input, hypotheses discharged. -/
theorem calculate_aggregate_rankings_spec_witness :
    calculate_aggregate_rankings twoJudges twoLabels =
      Except.ok (List.insertionSort aggle (unsortedAggSpec (rankingTexts twoJudges) twoLabels))
    ∧ (∀ a ∈ List.insertionSort aggle (unsortedAggSpec (rankingTexts twoJudges) twoLabels),
        a.rankings_count = (positionsSpec (rankingTexts twoJudges) twoLabels a.model).length
        ∧ 1 ≤ a.rankings_count
        ∧ a.average_rank =
          round2 (((positionsSpec (rankingTexts twoJudges) twoLabels a.model).sum : ℚ) /
            ((positionsSpec (rankingTexts twoJudges) twoLabels a.model).length : ℚ)))
    ∧ List.Sorted aggle
        (List.insertionSort aggle (unsortedAggSpec (rankingTexts twoJudges) twoLabels))
    ∧ (∀ q : ℚ,
        (List.insertionSort aggle
            (unsortedAggSpec (rankingTexts twoJudges) twoLabels)).filter
            (fun a => decide (a.average_rank = q)) =
          (unsortedAggSpec (rankingTexts twoJudges) twoLabels).filter
            (fun a => decide (a.average_rank = q)))
    ∧ (∀ m : String,
        (∃ a ∈ List.insertionSort aggle
            (unsortedAggSpec (rankingTexts twoJudges) twoLabels), a.model = m)
          ↔ positionsSpec (rankingTexts twoJudges) twoLabels m ≠ []) :=
  calculate_aggregate_rankings_spec twoJudges twoLabels (by decide)

/-- Counterexample for C4 as stated: one participant whose parsed ranking
mentions `Response A` twice gives model `mX` a `rankings_count` of 2, although
the number of Stage-2 participants whose parsed ranking mentioned that label
is 1. -/
theorem aggregate_counts_occurrences_not_participants :
    calculate_aggregate_rankings
        [⟨"judge", some "FINAL RANKING:\n1. Response A\n2. Response A", []⟩]
        [("Response A", "mX")] =
      Except.ok [⟨"mX", 3 / 2, 2⟩]
    ∧ specMentionCount ["FINAL RANKING:\n1. Response A\n2. Response A"]
        [("Response A", "mX")] "mX" = 1
    ∧ (2 : Nat) ≠ 1 := by
  refine ⟨?_, by decide, by decide⟩
  have h1 : calculate_aggregate_rankings
      [⟨"judge", some "FINAL RANKING:\n1. Response A\n2. Response A", []⟩]
      [("Response A", "mX")] = Except.ok [mkAggEntry "mX" [1, 2]] := rfl
  have h2 : mkAggEntry "mX" [1, 2] = ⟨"mX", 3 / 2, 2⟩ := by
    simp only [mkAggEntry, round2, List.sum_cons, List.sum_nil, List.length_cons,
      List.length_nil]
    norm_num
  rw [h1, h2]

end LlmCouncil
